import Mathlib

/-!
Verification development for `src/is-it-on-hfqpdb.py`.

The file embeds the duplicate-detection core of the program:
`coupons_are_similar` (with its inner `template_cmp`), the per-candidate
classifier `process_coupon` (lines 70-86), and the batch collection of the
main block (lines 130-147, 162).  External library calls (`cv2.imdecode`,
`cv2.cvtColor`, `cv2.matchTemplate`, `numpy` buffers, Python `hash`) are
modelled from their documented behavior; every piece of control flow is
taken directly from the Python source.  Raised Python exceptions are
modelled with `Except`.
-/

/-- Raw encoded image bytes (a Python `bytes` object), one natural number
per byte. -/
abbrev ByteBuf := List Nat

/-- A grayscale pixel grid: the `ndarray` produced by `cv2.imdecode`
followed by `cv2.cvtColor(..., COLOR_BGR2GRAY)` (lines 55-59).  Pixel
values outside the `rows`/`cols` range are irrelevant to every definition
below. -/
structure GrayImage where
  rows : Nat
  cols : Nat
  px : Nat → Nat → ℤ

/-- Python exceptions relevant to the embedded code: `cvError` models
`cv2.error` (raised by `cv2.cvtColor` on an empty decode result at lines
58-59, and by `cv2.matchTemplate` on a geometric mismatch, caught locally
at line 49); `typeError` models the `TypeError` that `np.frombuffer` or
`fp.write` raise on a Python `None` argument. -/
inductive PyErr where
  | cvError
  | typeError
deriving DecidableEq

/-- Modelled decode pipeline of lines 52-59: `cv2.imdecode` applied to the
buffer, composed with the grayscale conversion.  `cv2.imdecode` is
documented to return an image for well-formed encoded data and an empty
result (`None` in Python) otherwise; the model's well-formed format is
`[rows, cols] ++ pixels` with exactly `rows * cols` pixel bytes and
positive dimensions. -/
def imdecode : ByteBuf → Option GrayImage
  | r :: c :: rest =>
    if 0 < r ∧ 0 < c ∧ rest.length = r * c then
      some ⟨r, c, fun i j => ((rest.getD (i * c + j) 0 : Nat) : ℤ)⟩
    else none
  | _ => none

/-- line 17: `SIMILAR_THRESHOLD = 0.9` (the Python float literal,
modelled as the rational it denotes). -/
def SIMILAR_THRESHOLD : ℚ := mkRat 9 10

/-- Number of template pixels, as an integer scale factor. -/
def tdim (t : GrayImage) : ℤ := (t.rows : ℤ) * (t.cols : ℤ)

/-- Sum of all pixels of an image over its declared extent. -/
def pixSum (t : GrayImage) : ℤ :=
  ∑ i ∈ Finset.range t.rows, ∑ j ∈ Finset.range t.cols, t.px i j

/-- Sum of squared deviations from the mean, scaled by `(tdim t)^2`:
`∑ (tdim t * px - pixSum t)^2 = (tdim t)^2 * ∑ (px - mean)^2`. -/
def devSq (t : GrayImage) : ℤ :=
  ∑ i ∈ Finset.range t.rows, ∑ j ∈ Finset.range t.cols,
    (tdim t * t.px i j - pixSum t) * (tdim t * t.px i j - pixSum t)

/-- The `h × w` window of `img` whose top-left corner is at `(y, x)`. -/
def subWindow (img : GrayImage) (y x h w : Nat) : GrayImage :=
  ⟨h, w, fun i j => img.px (y + i) (x + j)⟩

/-- Numerator of the `TM_CCOEFF_NORMED` correlation coefficient at offset
`(y, x)`, scaled by `(tdim t)^2` (the scaling cancels in the normalized
quotient). -/
def ccNum (img t : GrayImage) (y x : Nat) : ℤ :=
  ∑ i ∈ Finset.range t.rows, ∑ j ∈ Finset.range t.cols,
    (tdim t * t.px i j - pixSum t) *
      (tdim t * img.px (y + i) (x + j) - pixSum (subWindow img y x t.rows t.cols))

/-- Square of the denominator of the `TM_CCOEFF_NORMED` coefficient at
offset `(y, x)`, scaled by `(tdim t)^4`. -/
def ccDen2 (img t : GrayImage) (y x : Nat) : ℤ :=
  devSq t * devSq (subWindow img y x t.rows t.cols)

/-- Exact decision `coefficient at (y, x) ≥ thr` for a positive threshold
`thr = thr.num / thr.den`, phrased over the scaled integer numerator and
squared denominator so that it is fully computable in integer arithmetic:
for `thr > 0`,
`num / sqrt den2 ≥ thr  ↔
   den2 > 0 ∧ num ≥ 0 ∧ thr.num^2 * den2 ≤ num^2 * thr.den^2`
(a zero denominator means a constant image patch, for which the
normalized coefficient is undefined and the comparison fails). -/
def ccGe (thr : ℚ) (img t : GrayImage) (y x : Nat) : Bool :=
  decide (0 < ccDen2 img t y x ∧ 0 ≤ ccNum img t y x ∧
    thr.num * thr.num * ccDen2 img t y x ≤
      ccNum img t y x * ccNum img t y x * ((thr.den : ℤ) * (thr.den : ℤ)))

/-- The real value of the `TM_CCOEFF_NORMED` coefficient at `(y, x)`
(scaled numerator over the square root of the scaled squared
denominator); used only in specification statements. -/
noncomputable def ccoeffReal (img t : GrayImage) (y x : Nat) : ℝ :=
  (ccNum img t y x : ℝ) / Real.sqrt (ccDen2 img t y x : ℝ)

/-- Geometric validity of a template match: the template is no larger
than the search image in either axis (the documented requirement of
`cv2.matchTemplate`, and the meaning of the comment at line 49). -/
def fitsIn (t img : GrayImage) : Prop := t.rows ≤ img.rows ∧ t.cols ≤ img.cols

instance (t img : GrayImage) : Decidable (fitsIn t img) :=
  inferInstanceAs (Decidable (_ ∧ _))

/-- line 46: `np.where(res >= SIMILAR_THRESHOLD)[0].size > 0` — some
coefficient of the correlation surface meets or exceeds the threshold.
The surface has `(rows - trows + 1) × (cols - tcols + 1)` entries. -/
def anyGe (thr : ℚ) (image t : GrayImage) : Bool :=
  (List.range (image.rows - t.rows + 1)).any fun y =>
    (List.range (image.cols - t.cols + 1)).any fun x => ccGe thr image t y x

/-- lines 40-50, inner `template_cmp(image, template_image)`: run
`cv2.matchTemplate` and test the surface against the threshold; the
`cv2.error` raised when the template exceeds the image is caught and
turned into `None` (line 49-50).  The threshold is a parameter standing
for the module constant `SIMILAR_THRESHOLD` the source reads. -/
def template_cmpT (thr : ℚ) (image template_image : GrayImage) : Option Bool :=
  if fitsIn template_image image then some (anyGe thr image template_image) else none

/-- `template_cmp` exactly as the source has it, reading the module
constant. -/
def template_cmp : GrayImage → GrayImage → Option Bool :=
  template_cmpT SIMILAR_THRESHOLD

/-- lines 61-67: try image `ga` with template `gb`; on `None` retry with
the roles swapped; a final `None` becomes `False`. -/
def sim_coreT (thr : ℚ) (ga gb : GrayImage) : Bool :=
  match template_cmpT thr ga gb with
  | some r => r
  | none =>
    match template_cmpT thr gb ga with
    | some r => r
    | none => false

/-- lines 39-67, `coupons_are_similar(coupon_a, coupon_b)`.  A `None`
argument makes `np.frombuffer` raise (lines 52-53); an undecodable buffer
makes `cv2.cvtColor` raise at line 58 or 59, since `cv2.imdecode` returned
no image — neither exception is caught inside the function. -/
def coupons_are_similarT (thr : ℚ) (coupon_a coupon_b : Option ByteBuf) :
    Except PyErr Bool :=
  match coupon_a with
  | none => .error .typeError
  | some a =>
    match coupon_b with
    | none => .error .typeError
    | some b =>
      match imdecode a with
      | none => .error .cvError
      | some ga =>
        match imdecode b with
        | none => .error .cvError
        | some gb => .ok (sim_coreT thr ga gb)

/-- `coupons_are_similar` exactly as the source has it, reading the
module constant. -/
def coupons_are_similar : Option ByteBuf → Option ByteBuf → Except PyErr Bool :=
  coupons_are_similarT SIMILAR_THRESHOLD

/-- The coupon triple `(image_bytes, hash, image_name)` produced by
`dl_and_hash_coupon` (lines 25-36): both payload fields are absent after a
download failure. -/
structure Coupon where
  image : Option ByteBuf
  hash : Option ℤ
  name : String

/-- lines 30-31, the success path of `dl_and_hash_coupon`: the stored
fingerprint is Python's builtin `hash` of the raw bytes, modelled by the
parameter `pyhash`. -/
def dl_ok (pyhash : ByteBuf → ℤ) (bs : ByteBuf) (nm : String) : Coupon :=
  ⟨some bs, some (pyhash bs), nm⟩

/-- line 16: `SAVE_DIR = "upload/"`. -/
def SAVE_DIR : String := "upload/"

/-- line 77, the loop condition
`hf_image_hash == db_image_hash or coupons_are_similar(db_image, hf_image)`
with Python's short-circuit `or`: on a fingerprint match the similarity
comparison is never evaluated. -/
def line77_matches (hf c : Coupon) : Except PyErr Bool :=
  if hf.hash = c.hash then .ok true else coupons_are_similar c.image hf.image

/-- lines 75-79: scan the database in order, stopping at the first match
(`save = False; break`); an uncaught exception from the comparison
propagates. -/
def scan_db (hf : Coupon) : List Coupon → Except PyErr Bool
  | [] => .ok false
  | c :: rest =>
    match line77_matches hf c with
    | .error e => .error e
    | .ok true => .ok true
    | .ok false => scan_db hf rest

/-- lines 70-86, `process_coupon(hf_coupon, database)`: the first
component is the returned `not_found` name, the second is the write log of
lines 81-84 (path written, bytes written). -/
def process_coupon (hf : Coupon) (database : List Coupon) :
    Except PyErr (Option String × List (String × ByteBuf)) :=
  match hf.hash with
  | none => .ok (none, [])
  | some _ =>
    match scan_db hf database with
    | .error e => .error e
    | .ok true => .ok (none, [])
    | .ok false =>
      match hf.image with
      | some bs => .ok (some hf.name, [(SAVE_DIR ++ hf.name, bs)])
      | none => .error .typeError

/-- lines 130-147: run `process_coupon` on every candidate against the
full database and collect the non-`None` results in order; the first
exception raised by a worker surfaces at its `result()` call. -/
def classify_missing (database : List Coupon) : List Coupon → Except PyErr (List String)
  | [] => .ok []
  | c :: cs =>
    match process_coupon c database with
    | .error e => .error e
    | .ok (some nm, _) =>
      match classify_missing database cs with
      | .error e => .error e
      | .ok rest => .ok (nm :: rest)
    | .ok (none, _) => classify_missing database cs

/-- The batch result the main block reports: the missing names plus the
found count `hf_coupon_count - len(not_found)` of line 162. -/
def classify (candidates database : List Coupon) : Except PyErr (List String × Nat) :=
  match classify_missing database candidates with
  | .error e => .error e
  | .ok missing => .ok (missing, candidates.length - missing.length)

/-! ### Helper lemmas -/

lemma devSq_nonneg (t : GrayImage) : 0 ≤ devSq t := by
  refine Finset.sum_nonneg fun i _ => Finset.sum_nonneg fun j _ => ?_
  exact mul_self_nonneg _

lemma ccDen2_nonneg (img t : GrayImage) (y x : Nat) : 0 ≤ ccDen2 img t y x :=
  mul_nonneg (devSq_nonneg t) (devSq_nonneg _)

lemma ccNum_symm (A B : GrayImage) (hr : A.rows = B.rows) (hc : A.cols = B.cols) :
    ccNum A B 0 0 = ccNum B A 0 0 := by
  obtain ⟨ar, ac, af⟩ := A
  obtain ⟨br, bc, bf⟩ := B
  simp only at hr hc
  subst hr; subst hc
  simp only [ccNum, pixSum, tdim, subWindow, Nat.zero_add]
  refine Finset.sum_congr rfl fun i _ => Finset.sum_congr rfl fun j _ => ?_
  ring

lemma ccDen2_symm (A B : GrayImage) (hr : A.rows = B.rows) (hc : A.cols = B.cols) :
    ccDen2 A B 0 0 = ccDen2 B A 0 0 := by
  obtain ⟨ar, ac, af⟩ := A
  obtain ⟨br, bc, bf⟩ := B
  simp only at hr hc
  subst hr; subst hc
  simp only [ccDen2, devSq, pixSum, tdim, subWindow, Nat.zero_add]
  ring

lemma ccGe_symm (thr : ℚ) (A B : GrayImage) (hr : A.rows = B.rows) (hc : A.cols = B.cols) :
    ccGe thr A B 0 0 = ccGe thr B A 0 0 := by
  unfold ccGe
  rw [ccNum_symm A B hr hc, ccDen2_symm A B hr hc]

lemma anyGe_symm (thr : ℚ) (A B : GrayImage) (hr : A.rows = B.rows) (hc : A.cols = B.cols) :
    anyGe thr A B = anyGe thr B A := by
  unfold anyGe
  have h1 : A.rows - B.rows + 1 = 1 := by omega
  have h2 : A.cols - B.cols + 1 = 1 := by omega
  have h3 : B.rows - A.rows + 1 = 1 := by omega
  have h4 : B.cols - A.cols + 1 = 1 := by omega
  rw [h1, h2, h3, h4]
  simp [List.range_succ, ccGe_symm thr A B hr hc]

lemma sim_core_symm (thr : ℚ) (ga gb : GrayImage) :
    sim_coreT thr ga gb = sim_coreT thr gb ga := by
  unfold sim_coreT template_cmpT
  by_cases h1 : fitsIn gb ga <;> by_cases h2 : fitsIn ga gb <;> simp [h1, h2]
  have hr : ga.rows = gb.rows := le_antisymm h2.1 h1.1
  have hc : ga.cols = gb.cols := le_antisymm h2.2 h1.2
  exact anyGe_symm thr ga gb hr hc

lemma similar_error_of_undecodable (a b : ByteBuf)
    (hdec : imdecode a = none ∨ imdecode b = none) :
    coupons_are_similar (some a) (some b) = .error .cvError := by
  rcases hdec with h | h
  · simp only [coupons_are_similar, coupons_are_similarT, h]
  · cases ha : imdecode a with
    | none => simp only [coupons_are_similar, coupons_are_similarT, ha]
    | some ga => simp only [coupons_are_similar, coupons_are_similarT, ha, h]

/-! ### Claims -/

/-- Claim C5 (confirmed): for every two decodable buffers, the similarity
check is symmetric — comparing A against B yields the same result as
comparing B against A. -/
theorem c5_similarity_symmetric (a b : ByteBuf) (ga gb : GrayImage)
    (ha : imdecode a = some ga) (hb : imdecode b = some gb) :
    coupons_are_similar (some a) (some b) = coupons_are_similar (some b) (some a) := by
  simp only [coupons_are_similar, coupons_are_similarT, ha, hb]
  exact congrArg Except.ok (sim_core_symm SIMILAR_THRESHOLD ga gb)

/-- Witness for C5 at concrete decodable buffers. -/
theorem c5_witness :
    coupons_are_similar (some [1, 1, 5]) (some [1, 1, 7]) =
      coupons_are_similar (some [1, 1, 7]) (some [1, 1, 5]) :=
  c5_similarity_symmetric _ _ _ _ rfl rfl

/-- Claim C6 (confirmed): when neither decoded image fits inside the other
(each exceeds the other in at least one axis), the verdict is `.ok false`:
returned normally, no exception escapes. -/
theorem c6_incomparable_dims_false (a b : ByteBuf) (ga gb : GrayImage)
    (ha : imdecode a = some ga) (hb : imdecode b = some gb)
    (h1 : ¬ fitsIn gb ga) (h2 : ¬ fitsIn ga gb) :
    coupons_are_similar (some a) (some b) = .ok false := by
  simp only [coupons_are_similar, coupons_are_similarT, ha, hb]
  unfold sim_coreT template_cmpT
  simp [h1, h2]

/-- Witness for C6: a 1×2 image against a 2×1 image. -/
theorem c6_witness :
    coupons_are_similar (some [1, 2, 3, 4]) (some [2, 1, 3, 4]) = .ok false :=
  c6_incomparable_dims_false _ _ _ _ rfl rfl (by decide) (by decide)

/-- Claim C7 (confirmed): on the approximate fallback (fingerprints
differ), the comparison performed is `coupons_are_similar(reference,
candidate)`, whose first attempt slides the candidate as the template over
the reference as the search image; when that orientation is geometrically
valid its surface decision alone is the verdict, and the reversed roles
are consulted only when it is invalid. -/
theorem c7_orientation_order (hf c : Coupon) (cb hb : ByteBuf) (gc ghf : GrayImage)
    (hne : hf.hash ≠ c.hash) (hci : c.image = some cb) (hhi : hf.image = some hb)
    (hgc : imdecode cb = some gc) (hghf : imdecode hb = some ghf) :
    line77_matches hf c = coupons_are_similar (some cb) (some hb) ∧
    (fitsIn ghf gc →
      line77_matches hf c = .ok (anyGe SIMILAR_THRESHOLD gc ghf)) ∧
    (¬ fitsIn ghf gc →
      line77_matches hf c = .ok ((template_cmp ghf gc).getD false)) := by
  have hl : line77_matches hf c = coupons_are_similar (some cb) (some hb) := by
    unfold line77_matches
    rw [if_neg hne, hci, hhi]
  have hsim : coupons_are_similar (some cb) (some hb) = .ok (sim_coreT SIMILAR_THRESHOLD gc ghf) := by
    simp only [coupons_are_similar, coupons_are_similarT, hgc, hghf]
  refine ⟨hl, fun hfit => ?_, fun hnofit => ?_⟩
  · rw [hl, hsim]
    unfold sim_coreT template_cmpT
    rw [if_pos hfit]
  · rw [hl, hsim]
    unfold sim_coreT
    unfold template_cmp
    rw [show template_cmpT SIMILAR_THRESHOLD gc ghf = none from if_neg hnofit]
    cases template_cmpT SIMILAR_THRESHOLD ghf gc <;> rfl

/-- Witness for C7: a 1×1 candidate template over a 2×2 reference. -/
theorem c7_witness :
    line77_matches ⟨some [1, 1, 5], some 0, "hf.png"⟩ ⟨some [2, 2, 5, 5, 5, 6], some 1, "db.png"⟩ =
      coupons_are_similar (some [2, 2, 5, 5, 5, 6]) (some [1, 1, 5]) :=
  (c7_orientation_order ⟨some [1, 1, 5], some 0, "hf.png"⟩ ⟨some [2, 2, 5, 5, 5, 6], some 1, "db.png"⟩
    [2, 2, 5, 5, 5, 6] [1, 1, 5] _ _ (by decide) rfl rfl rfl rfl).1

/-- Claim C1 (corrected): an undecodable buffer does NOT degrade the
comparison to "not similar" — `cv2.cvtColor` raises on the empty decode
result and nothing inside `coupons_are_similar` or `process_coupon`
catches it, so the exception aborts that candidate's classification. -/
theorem c1_decode_failure_raises (a b : ByteBuf) (hf c : Coupon)
    (rest : List Coupon) (h : ℤ)
    (hdec : imdecode a = none ∨ imdecode b = none)
    (hh : hf.hash = some h) (hne : hf.hash ≠ c.hash)
    (hci : c.image = some a) (hhi : hf.image = some b) :
    coupons_are_similar (some a) (some b) = .error .cvError ∧
    process_coupon hf (c :: rest) = .error .cvError := by
  have hsim := similar_error_of_undecodable a b hdec
  have hline : line77_matches hf c = .error .cvError := by
    unfold line77_matches
    rw [if_neg hne, hci, hhi, hsim]
  have hscan : scan_db hf (c :: rest) = .error .cvError := by
    unfold scan_db
    rw [hline]
  refine ⟨hsim, ?_⟩
  simp only [process_coupon, hh, hscan]

/-- Witness for C1's corrected statement: an undecodable reference image
aborts the candidate's classification with `cv2.error`. -/
theorem c1_witness :
    coupons_are_similar (some []) (some [1, 1, 5]) = .error .cvError ∧
    process_coupon ⟨some [1, 1, 5], some 0, "hf.png"⟩ [⟨some [], some 1, "db.png"⟩] =
      .error .cvError :=
  c1_decode_failure_raises [] [1, 1, 5] ⟨some [1, 1, 5], some 0, "hf.png"⟩
    ⟨some [], some 1, "db.png"⟩ [] 0 (Or.inl rfl) rfl (by decide) rfl rfl

/-- Counterexample to C1 as stated: a pair with undecodable buffers does
not yield the verdict `false`; the comparison raises instead. -/
theorem c1_counterexample :
    coupons_are_similar (some []) (some []) = .error .cvError ∧
    (Except.error PyErr.cvError : Except PyErr Bool) ≠ .ok false :=
  ⟨rfl, fun hcontra => Except.noConfusion hcontra⟩

/-- Claim C2 (corrected): classification is a pure function of its inputs
in every respect except persistence — `process_coupon` itself writes each
missing candidate's bytes to `SAVE_DIR` (lines 81-84); a found candidate
and a fingerprint-less candidate write nothing. -/
theorem c2_writes_characterized (hf : Coupon) (db : List Coupon)
    (r : Option String) (ws : List (String × ByteBuf))
    (hres : process_coupon hf db = .ok (r, ws)) :
    (r = none → ws = []) ∧
    (∀ nm, r = some nm →
      nm = hf.name ∧ ∃ bs, hf.image = some bs ∧ ws = [(SAVE_DIR ++ hf.name, bs)]) := by
  unfold process_coupon at hres
  cases hh : hf.hash with
  | none =>
    rw [hh] at hres
    obtain ⟨hr, hw⟩ : r = none ∧ ws = [] := by
      refine ⟨?_, ?_⟩ <;> injection hres with h1 <;>
        injection h1 with h2 h3
      · exact h2.symm
      · exact h3.symm
    subst hr; subst hw
    exact ⟨fun _ => rfl, fun nm hnm => Option.noConfusion hnm⟩
  | some hv =>
    rw [hh] at hres
    cases hsc : scan_db hf db with
    | error e => rw [hsc] at hres; exact Except.noConfusion hres
    | ok found =>
      rw [hsc] at hres
      cases found with
      | true =>
        obtain ⟨hr, hw⟩ : r = none ∧ ws = [] := by
          refine ⟨?_, ?_⟩ <;> injection hres with h1 <;>
            injection h1 with h2 h3
          · exact h2.symm
          · exact h3.symm
        subst hr; subst hw
        exact ⟨fun _ => rfl, fun nm hnm => Option.noConfusion hnm⟩
      | false =>
        cases hi : hf.image with
        | none => rw [hi] at hres; exact Except.noConfusion hres
        | some bs =>
          rw [hi] at hres
          obtain ⟨hr, hw⟩ : r = some hf.name ∧ ws = [(SAVE_DIR ++ hf.name, bs)] := by
            refine ⟨?_, ?_⟩ <;> injection hres with h1 <;>
              injection h1 with h2 h3
            · exact h2.symm
            · exact h3.symm
          subst hr; subst hw
          refine ⟨fun hcontra => Option.noConfusion hcontra, fun nm hnm => ?_⟩
          injection hnm with h4
          exact ⟨h4.symm, bs, rfl, rfl⟩

/-- Witness for C2's corrected statement, at a concrete found candidate
(no write) read off through the theorem. -/
theorem c2_witness :
    ((none : Option String) = none → ([] : List (String × ByteBuf)) = []) ∧
    (∀ nm, (none : Option String) = some nm →
      nm = "hf.png" ∧ ∃ bs, (some [1, 1, 5] : Option ByteBuf) = some bs ∧
        ([] : List (String × ByteBuf)) = [(SAVE_DIR ++ "hf.png", bs)]) :=
  c2_writes_characterized ⟨some [1, 1, 5], some 0, "hf.png"⟩
    [⟨some [1, 1, 5], some 0, "db.png"⟩] none [] rfl

/-- Counterexample to C2 as stated: `process_coupon` does persist — a
missing candidate's bytes are written to `SAVE_DIR` by the classifier
itself, so its effect is not limited to the returned result. -/
theorem c2_counterexample :
    process_coupon ⟨some [], some 0, "n"⟩ [] = .ok (some "n", [(SAVE_DIR ++ "n", [])]) ∧
    [(SAVE_DIR ++ "n", ([] : ByteBuf))] ≠ ([] : List (String × ByteBuf)) :=
  ⟨rfl, fun hcontra => List.noConfusion hcontra⟩

lemma sim_core_false_iff (thr : ℚ) (ga gb : GrayImage) :
    sim_coreT thr ga gb = false ↔
      template_cmpT thr ga gb ≠ some true ∧ template_cmpT thr gb ga ≠ some true := by
  unfold sim_coreT template_cmpT
  by_cases h1 : fitsIn gb ga <;> by_cases h2 : fitsIn ga gb <;> simp [h1, h2]
  have hr : ga.rows = gb.rows := le_antisymm h2.1 h1.1
  have hc : ga.cols = gb.cols := le_antisymm h2.2 h1.2
  rw [anyGe_symm thr ga gb hr hc]
  cases anyGe thr gb ga <;> simp

lemma scan_db_false_iff (hf : Coupon) (db : List Coupon) :
    scan_db hf db = .ok false ↔
      ∀ c ∈ db, hf.hash ≠ c.hash ∧ coupons_are_similar c.image hf.image = .ok false := by
  induction db with
  | nil => simp [scan_db]
  | cons c rest ih =>
    simp only [scan_db, line77_matches, List.mem_cons, forall_eq_or_imp]
    by_cases hh : hf.hash = c.hash
    · simp [hh]
    · rw [if_neg hh]
      cases hcs : coupons_are_similar c.image hf.image with
      | error e => simp [hh, hcs]
      | ok b => cases b <;> simp [hh, hcs, ih]

lemma process_missing_iff (hf : Coupon) (db : List Coupon) (h : ℤ) (bs : ByteBuf)
    (hh : hf.hash = some h) (hi : hf.image = some bs) :
    process_coupon hf db = .ok (some hf.name, [(SAVE_DIR ++ hf.name, bs)]) ↔
      scan_db hf db = .ok false := by
  unfold process_coupon
  rw [hh]
  cases hsc : scan_db hf db with
  | error e => simp
  | ok found => cases found <;> simp [hi]

/-- Claim C3 (corrected): with a present fingerprint and present bytes,
the candidate is reported missing iff every reference differs in
fingerprint AND the similarity comparison against every reference
completes with the verdict "not similar" (`.ok false`); that verdict in
turn means both images decode and neither orientation of the template
match reports a similarity.  (The claim's own reading — "no reference
matches" — is refuted by `c3_counterexample`: an erroring comparison
matches nothing yet prevents the missing report.) -/
theorem c3_missing_iff_all_nonmatching (hf : Coupon) (db : List Coupon)
    (h : ℤ) (bs : ByteBuf) (hh : hf.hash = some h) (hi : hf.image = some bs) :
    (process_coupon hf db = .ok (some hf.name, [(SAVE_DIR ++ hf.name, bs)]) ↔
      ∀ c ∈ db, hf.hash ≠ c.hash ∧ coupons_are_similar c.image hf.image = .ok false) ∧
    (∀ x y : ByteBuf, coupons_are_similar (some x) (some y) = .ok false ↔
      ∃ gx gy, imdecode x = some gx ∧ imdecode y = some gy ∧
        template_cmp gx gy ≠ some true ∧ template_cmp gy gx ≠ some true) := by
  constructor
  · rw [process_missing_iff hf db h bs hh hi]
    exact scan_db_false_iff hf db
  · intro x y
    constructor
    · intro hok
      cases hgx : imdecode x with
      | none =>
        rw [similar_error_of_undecodable x y (Or.inl hgx)] at hok
        exact Except.noConfusion hok
      | some gx =>
        cases hgy : imdecode y with
        | none =>
          rw [similar_error_of_undecodable x y (Or.inr hgy)] at hok
          exact Except.noConfusion hok
        | some gy =>
          refine ⟨gx, gy, rfl, rfl, ?_⟩
          simp only [coupons_are_similar, coupons_are_similarT, hgx, hgy] at hok
          injection hok with hok
          exact (sim_core_false_iff SIMILAR_THRESHOLD gx gy).mp hok
    · rintro ⟨gx, gy, hgx, hgy, hb1, hb2⟩
      simp only [coupons_are_similar, coupons_are_similarT, hgx, hgy]
      exact congrArg Except.ok ((sim_core_false_iff SIMILAR_THRESHOLD gx gy).mpr ⟨hb1, hb2⟩)

/-- Witness for C3's corrected statement at a concrete candidate and
database. -/
theorem c3_witness :
    process_coupon ⟨some [1, 1, 5], some 0, "hf.png"⟩ [⟨some [1, 1, 200], some 1, "db.png"⟩] =
        .ok (some "hf.png", [(SAVE_DIR ++ "hf.png", [1, 1, 5])]) ↔
      ∀ c ∈ [(⟨some [1, 1, 200], some 1, "db.png"⟩ : Coupon)],
        (⟨some [1, 1, 5], some 0, "hf.png"⟩ : Coupon).hash ≠ c.hash ∧
          coupons_are_similar c.image (some [1, 1, 5]) = .ok false :=
  (c3_missing_iff_all_nonmatching ⟨some [1, 1, 5], some 0, "hf.png"⟩
    [⟨some [1, 1, 200], some 1, "db.png"⟩] 0 [1, 1, 5] rfl rfl).1

/-- Counterexample to C3 as stated: a reference with an undecodable image
and a different fingerprint matches the candidate neither by fingerprint
nor by similarity, yet the candidate is NOT reported missing — the
comparison raises and classification of this candidate aborts. -/
theorem c3_counterexample :
    (some (0 : ℤ) ≠ some (1 : ℤ)) ∧
    coupons_are_similar (some []) (some [1, 1, 5]) ≠ .ok true ∧
    process_coupon ⟨some [1, 1, 5], some 0, "hf.png"⟩ [⟨some [], some 1, "bad.png"⟩] =
      .error .cvError :=
  ⟨fun hcontra => by injection hcontra with h0; exact absurd h0 (by decide),
   fun hcontra => Except.noConfusion hcontra, rfl⟩

/-- Claim C4 (confirmed): equal fingerprints short-circuit the pairwise
duplicate check to `True` with no decoding (Python's `or`), and two
byte-identical coupons therefore match even when their bytes are
undecodable — at the `process_coupon` level the candidate is found with
nothing written. -/
theorem c4_exact_hash_short_circuit :
    (∀ hf c : Coupon, hf.hash = c.hash → line77_matches hf c = .ok true) ∧
    (∀ (pyhash : ByteBuf → ℤ) (bs : ByteBuf) (n1 n2 : String) (rest : List Coupon),
      process_coupon (dl_ok pyhash bs n1) (dl_ok pyhash bs n2 :: rest) = .ok (none, [])) := by
  have hline : ∀ hf c : Coupon, hf.hash = c.hash → line77_matches hf c = .ok true := by
    intro hf c hhash
    unfold line77_matches
    rw [if_pos hhash]
  refine ⟨hline, fun pyhash bs n1 n2 rest => ?_⟩
  have hscan : scan_db ⟨some bs, some (pyhash bs), n1⟩
      ((⟨some bs, some (pyhash bs), n2⟩ : Coupon) :: rest) = .ok true := by
    unfold scan_db
    rw [hline ⟨some bs, some (pyhash bs), n1⟩ ⟨some bs, some (pyhash bs), n2⟩ rfl]
  simp only [process_coupon, dl_ok, hscan]

/-- Witness for C4 at an undecodable byte-identical pair. -/
theorem c4_witness :
    imdecode [] = none ∧
    line77_matches ⟨some [], some 7, "x"⟩ ⟨none, some 7, "y"⟩ = .ok true ∧
    process_coupon (dl_ok (fun _ => 0) [] "x") [dl_ok (fun _ => 0) [] "y"] = .ok (none, []) :=
  ⟨rfl, c4_exact_hash_short_circuit.1 ⟨some [], some 7, "x"⟩ ⟨none, some 7, "y"⟩ rfl,
   c4_exact_hash_short_circuit.2 (fun _ => 0) [] "x" "y" []⟩

/-- Claim C9 (confirmed): an empty candidate set classifies to an empty
missing list with found count 0 for every reference set; and against an
empty reference set every candidate with a present fingerprint (and,
as produced by the fetcher, present bytes) is reported missing. -/
theorem c9_empty_inputs :
    (∀ db : List Coupon, classify [] db = .ok ([], 0)) ∧
    (∀ cands : List Coupon, (∀ c ∈ cands, c.hash.isSome → c.image.isSome) →
      classify cands [] =
        .ok ((cands.filter fun c => c.hash.isSome).map Coupon.name,
          cands.length - ((cands.filter fun c => c.hash.isSome).map Coupon.name).length)) := by
  constructor
  · intro db; rfl
  · intro cands hwf
    have hmiss : ∀ cs : List Coupon, (∀ c ∈ cs, c.hash.isSome → c.image.isSome) →
        classify_missing [] cs = .ok ((cs.filter fun c => c.hash.isSome).map Coupon.name) := by
      intro cs
      induction cs with
      | nil => intro _; rfl
      | cons c rest ih =>
        intro hwf'
        have hrest := ih fun x hx => hwf' x (List.mem_cons_of_mem _ hx)
        cases hc : c.hash with
        | none =>
          simp only [classify_missing, process_coupon, hc, hrest, List.filter_cons]
          simp [hc]
        | some hv =>
          have himg : c.image.isSome := hwf' c (List.mem_cons_self c rest) (by rw [hc]; rfl)
          obtain ⟨bs, hbs⟩ := Option.isSome_iff_exists.mp himg
          simp only [classify_missing, process_coupon, hc, scan_db, hbs, hrest,
            List.filter_cons, List.map_cons]
          simp [hc]
    unfold classify
    rw [hmiss cands hwf]

/-- Witness for C9: an empty candidate run, and a two-candidate run (one
fetch failure) against an empty reference set. -/
theorem c9_witness :
    classify [] [⟨some [1, 1, 5], some 2, "r.png"⟩] = .ok ([], 0) ∧
    classify [⟨some [], some 0, "a.png"⟩, ⟨none, none, "b.png"⟩] [] = .ok (["a.png"], 1) :=
  ⟨c9_empty_inputs.1 [⟨some [1, 1, 5], some 2, "r.png"⟩],
   c9_empty_inputs.2 [⟨some [], some 0, "a.png"⟩, ⟨none, none, "b.png"⟩] (by decide)⟩

/-- Claim C10 (confirmed): equal stored fingerprints make the candidate
"found" with no byte comparison at all — the result is the same for every
pair of buffers with colliding hash values; and since Python's `hash`
has a finite range over infinitely many byte strings, some two distinct
buffers collide and are classified found despite differing bytes. -/
theorem c10_hash_collision_found (pyhash : ByteBuf → ℤ) (n1 n2 : String)
    (hfin : (Set.range pyhash).Finite) :
    (∀ a b : ByteBuf, pyhash a = pyhash b →
      process_coupon (dl_ok pyhash a n1) [dl_ok pyhash b n2] = .ok (none, [])) ∧
    (∃ a b : ByteBuf, a ≠ b ∧
      process_coupon (dl_ok pyhash a n1) [dl_ok pyhash b n2] = .ok (none, [])) := by
  have key : ∀ a b : ByteBuf, pyhash a = pyhash b →
      process_coupon (dl_ok pyhash a n1) [dl_ok pyhash b n2] = .ok (none, []) := by
    intro a b hcol
    have hline : line77_matches ⟨some a, some (pyhash a), n1⟩
        ⟨some b, some (pyhash b), n2⟩ = .ok true := by
      simp [line77_matches, hcol]
    have hscan : scan_db ⟨some a, some (pyhash a), n1⟩
        [(⟨some b, some (pyhash b), n2⟩ : Coupon)] = .ok true := by
      unfold scan_db
      rw [hline]
    simp only [process_coupon, dl_ok, hscan]
  refine ⟨key, ?_⟩
  obtain ⟨a, -, b, -, hne, heq⟩ :=
    Set.infinite_univ.exists_ne_map_eq_of_mapsTo
      (fun z _ => Set.mem_range_self (f := pyhash) z) hfin
  exact ⟨a, b, hne, key a b heq⟩

/-- Witness for C10 with a concrete finite-range hash. -/
theorem c10_witness :
    ∃ a b : ByteBuf, a ≠ b ∧
      process_coupon (dl_ok (fun _ => (0 : ℤ)) a "hf.png")
        [dl_ok (fun _ => (0 : ℤ)) b "db.png"] = .ok (none, []) :=
  (c10_hash_collision_found (fun _ => 0) "hf.png" "db.png"
    ((Set.finite_singleton (0 : ℤ)).subset (by rintro z ⟨w, rfl⟩; exact rfl))).2

lemma ccGe_iff_real (thr : ℚ) (img t : GrayImage) (y x : Nat) (hthr : 0 < thr) :
    ccGe thr img t y x = true ↔ (thr : ℝ) ≤ ccoeffReal img t y x := by
  have hd0 := ccDen2_nonneg img t y x
  have hthrR : (0 : ℝ) < (thr : ℝ) := by exact_mod_cast hthr
  have hq0 : (0 : ℝ) < ((thr.den : ℕ) : ℝ) := by exact_mod_cast thr.den_pos
  rw [ccGe, decide_eq_true_iff]
  rcases hd0.eq_or_lt with hd | hd
  · constructor
    · rintro ⟨h0, -, -⟩
      rw [← hd] at h0
      exact absurd h0 (lt_irrefl 0)
    · intro hc
      exfalso
      rw [ccoeffReal, ← hd] at hc
      simp only [Int.cast_zero, Real.sqrt_zero, div_zero] at hc
      exact absurd hc (not_le.mpr hthrR)
  · have hdR : (0 : ℝ) < ((ccDen2 img t y x : ℤ) : ℝ) := by exact_mod_cast hd
    have hs : 0 < Real.sqrt ((ccDen2 img t y x : ℤ) : ℝ) := Real.sqrt_pos.mpr hdR
    constructor
    · rintro ⟨-, hn0, hint⟩
      have hn0R : (0 : ℝ) ≤ ((ccNum img t y x : ℤ) : ℝ) := by exact_mod_cast hn0
      have hintR : ((thr.num : ℤ) : ℝ) * ((thr.num : ℤ) : ℝ) * ((ccDen2 img t y x : ℤ) : ℝ) ≤
          ((ccNum img t y x : ℤ) : ℝ) * ((ccNum img t y x : ℤ) : ℝ) *
            (((thr.den : ℕ) : ℝ) * ((thr.den : ℕ) : ℝ)) := by exact_mod_cast hint
      have hsq : ((thr : ℝ)) ^ 2 * ((ccDen2 img t y x : ℤ) : ℝ) ≤
          ((ccNum img t y x : ℤ) : ℝ) ^ 2 := by
        rw [Rat.cast_def, div_pow, div_mul_eq_mul_div, div_le_iff₀ (pow_pos hq0 2)]
        nlinarith [hintR]
      rw [ccoeffReal, le_div_iff₀ hs]
      calc (thr : ℝ) * Real.sqrt ((ccDen2 img t y x : ℤ) : ℝ)
          = Real.sqrt ((thr : ℝ) ^ 2 * ((ccDen2 img t y x : ℤ) : ℝ)) := by
            rw [Real.sqrt_mul (sq_nonneg _), Real.sqrt_sq hthrR.le]
        _ ≤ Real.sqrt (((ccNum img t y x : ℤ) : ℝ) ^ 2) := Real.sqrt_le_sqrt hsq
        _ = ((ccNum img t y x : ℤ) : ℝ) := Real.sqrt_sq hn0R
    · intro hc
      rw [ccoeffReal, le_div_iff₀ hs] at hc
      have hprod : (0 : ℝ) ≤ (thr : ℝ) * Real.sqrt ((ccDen2 img t y x : ℤ) : ℝ) :=
        mul_nonneg hthrR.le (Real.sqrt_nonneg _)
      have hn0R : (0 : ℝ) ≤ ((ccNum img t y x : ℤ) : ℝ) := le_trans hprod hc
      have hn0 : (0 : ℤ) ≤ ccNum img t y x := by exact_mod_cast hn0R
      refine ⟨hd, hn0, ?_⟩
      have hsq : ((thr : ℝ) * Real.sqrt ((ccDen2 img t y x : ℤ) : ℝ)) ^ 2 ≤
          ((ccNum img t y x : ℤ) : ℝ) ^ 2 := pow_le_pow_left₀ hprod hc 2
      rw [mul_pow, Real.sq_sqrt hdR.le] at hsq
      rw [Rat.cast_def, div_pow, div_mul_eq_mul_div, div_le_iff₀ (pow_pos hq0 2)] at hsq
      have hgoalR : ((thr.num : ℤ) : ℝ) * ((thr.num : ℤ) : ℝ) * ((ccDen2 img t y x : ℤ) : ℝ) ≤
          ((ccNum img t y x : ℤ) : ℝ) * ((ccNum img t y x : ℤ) : ℝ) *
            (((thr.den : ℕ) : ℝ) * ((thr.den : ℕ) : ℝ)) := by nlinarith [hsq]
      exact_mod_cast hgoalR

/-- Claim C8 (confirmed): in a geometrically valid orientation the
template comparison reports a duplicate exactly when some coefficient of
the normalized cross-correlation surface is at least the threshold (so a
pair whose every coefficient is strictly below the threshold is not a
duplicate); the module's threshold constant is 0.9. -/
theorem c8_threshold_semantics (thr : ℚ) (img t : GrayImage)
    (hthr : 0 < thr) (hfit : fitsIn t img) :
    (template_cmpT thr img t = some true ↔
      ∃ y < img.rows - t.rows + 1, ∃ x < img.cols - t.cols + 1,
        (thr : ℝ) ≤ ccoeffReal img t y x) ∧
    SIMILAR_THRESHOLD = 9 / 10 := by
  constructor
  · unfold template_cmpT
    rw [if_pos hfit]
    simp only [Option.some.injEq, anyGe, List.any_eq_true, List.mem_range]
    constructor
    · rintro ⟨y, hy, z, hz, hcc⟩
      exact ⟨y, hy, z, hz, (ccGe_iff_real thr img t y z hthr).mp hcc⟩
    · rintro ⟨y, hy, z, hz, hreal⟩
      exact ⟨y, hy, z, hz, (ccGe_iff_real thr img t y z hthr).mpr hreal⟩
  · unfold SIMILAR_THRESHOLD
    rw [Rat.mkRat_eq_div]
    norm_num

/-- A concrete non-constant 2×2 image for the C8 witness. -/
def imgW : GrayImage := ⟨2, 2, fun i j => ((2 * i + j : Nat) : ℤ)⟩

/-- Witness for C8 at the module threshold and a concrete valid
orientation. -/
theorem c8_witness :
    (0 : ℚ) < SIMILAR_THRESHOLD ∧ fitsIn imgW imgW ∧
    ((template_cmpT SIMILAR_THRESHOLD imgW imgW = some true ↔
        ∃ y < imgW.rows - imgW.rows + 1, ∃ x < imgW.cols - imgW.cols + 1,
          (SIMILAR_THRESHOLD : ℝ) ≤ ccoeffReal imgW imgW y x) ∧
      SIMILAR_THRESHOLD = 9 / 10) :=
  ⟨by decide, by decide,
   c8_threshold_semantics SIMILAR_THRESHOLD imgW imgW (by decide) (by decide)⟩
